import Mathlib

/-!
Verification development for the trip-visualizer scheduling core.

The definitions below are shallow embeddings of the TypeScript source:
the time utilities and the schedule recalculator of the main application
component (src/unnamed/part_000), the travel-segment selection policy and
the anchor-aware geometric route solver of src/services/mapService.ts, and
the delete / move itinerary mutation handlers.  JavaScript numbers are
modelled as Lean integers (Int.fdiv for Math.floor of a quotient, Int.tmod
for the JavaScript remainder operator); "HH:mm" wall-clock strings are kept
as Lean strings and parsed and printed by faithful models of the source's
helpers.
-/

namespace TripVis

/-- Models the JavaScript Number() conversion applied by timeToMins to each
field obtained by splitting an "HH:mm" string on the colon: a run of decimal
digits evaluates positionally, the empty string evaluates to 0.  A non-digit
character makes the JavaScript result NaN, which is outside the "HH:mm"
domain the program feeds in; it is mapped to 0 here. -/
def jsDigitsGo (acc : Nat) : List Char → Option Nat
  | [] => some acc
  | c :: cs => if c.isDigit then jsDigitsGo (10 * acc + (c.toNat - 48)) cs else none

/-- Numeric value of one split field, as an integer (see jsDigitsGo). -/
def jsNumOfChars (l : List Char) : Int :=
  match jsDigitsGo 0 l with
  | some n => (n : Int)
  | none => 0

/-- Model of the JavaScript split on a colon, t.split(":"), on the underlying
character list: maximal colon-free runs, with empty runs kept. -/
def splitOnColon : List Char → List (List Char)
  | [] => [[]]
  | c :: cs =>
    if c = ':' then [] :: splitOnColon cs
    else
      match splitOnColon cs with
      | [] => [[c]]
      | l :: ls => (c :: l) :: ls

/-- timeToMins (src/unnamed/part_000 lines 19-22): split on the colon, read the
first two fields as numbers h and m, return h * 60 + m.  A string without a
colon gives NaN in JavaScript; that case is outside the "HH:mm" domain and is
mapped to 0 here (the claims never exercise it). -/
def timeToMins (t : String) : Int :=
  match splitOnColon t.data with
  | h :: m :: _ => jsNumOfChars h * 60 + jsNumOfChars m
  | _ => 0

/-- Model of .toString().padStart(2, "0") as used by minsToTime: left-pad the
decimal string with zeros up to length two. -/
def padStart2 (s : String) : String :=
  if s.length < 2 then String.mk (List.replicate (2 - s.length) '0') ++ s else s

/-- minsToTime (src/unnamed/part_000 lines 25-29):
h = Math.floor(m / 60) % 24 and min = Math.floor(m % 60), each printed with
padStart(2, "0") around a colon.  Math.floor of a JavaScript quotient is
Int.fdiv and the JavaScript remainder is Int.tmod (sign of the dividend). -/
def minsToTime (m : Int) : String :=
  padStart2 (toString (Int.tmod (Int.fdiv m 60) 24)) ++ ":" ++
    padStart2 (toString (Int.tmod m 60))

/-- roundTo5 (src/unnamed/part_000 line 153): Math.ceil(mins / 5) * 5, the
integer ceiling of the quotient written as a floor division. -/
def roundTo5 (mins : Int) : Int := (Int.fdiv (mins + 4) 5) * 5

/-- timeToMins of src/services/mapService.ts (lines 42-46): identical parse but
guarded, returning 0 when the string has no colon (or is undefined). -/
def timeToMinsMS (t : String) : Int :=
  if t.data.contains ':' then timeToMins t else 0

/-- getRelMins inside solveGeometricTSP (mapService.ts lines 52-61): minutes
relative to the day start; a time strictly before the day start is treated as
belonging to the next day (+1440).  A missing/empty time returns 0 before any
wrapping. -/
def getRelMins (dayStartMins : Int) (t : String) : Int :=
  if t = "" then 0
  else
    let m := timeToMinsMS t
    if m < dayStartMins then m + 1440 else m

/-- A canonical wall-clock "HH:mm" string, the data model's time format: some
minute count below 1440 printed by minsToTime (two zero-padded fields). -/
def ValidTime (s : String) : Prop := ∃ n : Nat, n < 1440 ∧ s = minsToTime ((n : Nat) : Int)

theorem jsNumOfChars_nonneg (l : List Char) : 0 ≤ jsNumOfChars l := by
  unfold jsNumOfChars
  cases jsDigitsGo 0 l with
  | none => exact le_refl 0
  | some n => exact Int.ofNat_nonneg n

theorem timeToMins_nonneg (t : String) : 0 ≤ timeToMins t := by
  unfold timeToMins
  split
  · rename_i a b rest heq
    have h1 := jsNumOfChars_nonneg a
    have h2 := jsNumOfChars_nonneg b
    omega
  · exact le_refl 0

theorem timeToMinsMS_nonneg (t : String) : 0 ≤ timeToMinsMS t := by
  unfold timeToMinsMS
  split
  · exact timeToMins_nonneg t
  · exact le_refl 0

theorem roundTo5_nonneg (m : Int) (hm : 0 ≤ m) : 0 ≤ roundTo5 m := by
  unfold roundTo5
  have h5 : (0 : Int) ≤ 5 := by norm_num
  rw [Int.fdiv_eq_ediv _ h5]
  have : 0 ≤ (m + 4) / 5 := Int.ediv_nonneg (by omega) h5
  omega

theorem roundTo5_ge (m : Int) : m ≤ roundTo5 m := by
  unfold roundTo5
  rw [Int.fdiv_eq_ediv _ (by norm_num : (0:Int) ≤ 5)]
  omega

/-- Both two-digit fields printed by minsToTime parse back to their value and
contain no colon. -/
theorem twoDigitField : ∀ k : Fin 100,
    jsNumOfChars (padStart2 (toString ((k.val : Nat) : Int))).data = ((k.val : Nat) : Int) ∧
      ':' ∉ (padStart2 (toString ((k.val : Nat) : Int))).data := by decide

/-- Pointwise form of twoDigitField for rewriting. -/
theorem twoDigitFieldN (k : Nat) (hk : k < 100) :
    jsNumOfChars (padStart2 (toString ((k : Nat) : Int))).data = ((k : Nat) : Int) ∧
      ':' ∉ (padStart2 (toString ((k : Nat) : Int))).data :=
  twoDigitField ⟨k, hk⟩

theorem splitOnColon_no_colon (l : List Char) (h : ':' ∉ l) : splitOnColon l = [l] := by
  induction l with
  | nil => rfl
  | cons c cs ih =>
    have hc : ¬(c = ':') := by intro hc; exact h (hc ▸ List.mem_cons_self c cs)
    have hcs : ':' ∉ cs := fun hm => h (List.mem_cons_of_mem c hm)
    simp [splitOnColon, hc, ih hcs]

theorem splitOnColon_append (a b : List Char) (ha : ':' ∉ a) :
    splitOnColon (a ++ ':' :: b) = a :: splitOnColon b := by
  induction a with
  | nil => simp [splitOnColon]
  | cons c cs ih =>
    have hc : ¬(c = ':') := by intro hc; exact ha (hc ▸ List.mem_cons_self c cs)
    have hcs : ':' ∉ cs := fun hm => ha (List.mem_cons_of_mem c hm)
    simp [splitOnColon, hc, ih hcs]

theorem data_colon : (":" : String).data = [':'] := by decide

theorem data_minsToTime (m : Int) :
    (minsToTime m).data =
      (padStart2 (toString (Int.tmod (Int.fdiv m 60) 24))).data ++
        ':' :: (padStart2 (toString (Int.tmod m 60))).data := by
  unfold minsToTime
  rw [String.data_append, String.data_append, data_colon, List.append_assoc]
  rfl

theorem timeToMins_of_split (t : String) (a b : List Char) (rest : List (List Char))
    (h : splitOnColon t.data = a :: b :: rest) :
    timeToMins t = jsNumOfChars a * 60 + jsNumOfChars b := by
  unfold timeToMins
  rw [h]

/-- Parsing the printed time of a nonnegative minute count recovers the count
modulo 1440. -/
theorem timeToMins_minsToTime (m : Int) (hm : 0 ≤ m) :
    timeToMins (minsToTime m) = m % 1440 := by
  have hdiv : Int.fdiv m 60 = m / 60 := Int.fdiv_eq_ediv m (by norm_num)
  have hdivnn : 0 ≤ m / 60 := Int.ediv_nonneg hm (by norm_num)
  have hh : Int.tmod (Int.fdiv m 60) 24 = (m / 60) % 24 := by
    rw [hdiv]; exact Int.tmod_eq_emod hdivnn (by norm_num)
  have hmn : Int.tmod m 60 = m % 60 := Int.tmod_eq_emod hm (by norm_num)
  have hhn : 0 ≤ (m / 60) % 24 := Int.emod_nonneg _ (by norm_num)
  have hhlt : (m / 60) % 24 < 24 := Int.emod_lt_of_pos _ (by norm_num)
  have hmnn : 0 ≤ m % 60 := Int.emod_nonneg _ (by norm_num)
  have hmnlt : m % 60 < 60 := Int.emod_lt_of_pos _ (by norm_num)
  have e1 : Int.tmod (Int.fdiv m 60) 24 = (((m / 60) % 24).toNat : Int) := by
    rw [hh]; exact (Int.toNat_of_nonneg hhn).symm
  have e2 : Int.tmod m 60 = ((m % 60).toNat : Int) := by
    rw [hmn]; exact (Int.toNat_of_nonneg hmnn).symm
  have b1 : ((m / 60) % 24).toNat < 100 := by omega
  have b2 : (m % 60).toNat < 100 := by omega
  have key1 : jsNumOfChars (padStart2 (toString (Int.tmod (Int.fdiv m 60) 24))).data
      = Int.tmod (Int.fdiv m 60) 24 ∧
      ':' ∉ (padStart2 (toString (Int.tmod (Int.fdiv m 60) 24))).data := by
    rw [e1]; exact twoDigitFieldN _ b1
  have key2 : jsNumOfChars (padStart2 (toString (Int.tmod m 60))).data
      = Int.tmod m 60 ∧
      ':' ∉ (padStart2 (toString (Int.tmod m 60))).data := by
    rw [e2]; exact twoDigitFieldN _ b2
  have hsplit : splitOnColon (minsToTime m).data
      = (padStart2 (toString (Int.tmod (Int.fdiv m 60) 24))).data ::
          (padStart2 (toString (Int.tmod m 60))).data :: [] := by
    rw [data_minsToTime]
    rw [splitOnColon_append _ _ key1.2, splitOnColon_no_colon _ key2.2]
  rw [timeToMins_of_split _ _ _ _ hsplit, key1.1, key2.1, hh, hmn]
  omega

/-- Printing is invariant under reduction modulo 1440, for nonnegative input. -/
theorem minsToTime_emod (m : Int) (hm : 0 ≤ m) :
    minsToTime m = minsToTime (m % 1440) := by
  have hmod : 0 ≤ m % 1440 := Int.emod_nonneg _ (by norm_num)
  have h1 : Int.tmod (Int.fdiv m 60) 24 = Int.tmod (Int.fdiv (m % 1440) 60) 24 := by
    rw [Int.fdiv_eq_ediv m (by norm_num), Int.fdiv_eq_ediv (m % 1440) (by norm_num)]
    rw [Int.tmod_eq_emod (Int.ediv_nonneg hm (by norm_num)) (by norm_num)]
    rw [Int.tmod_eq_emod (Int.ediv_nonneg hmod (by norm_num)) (by norm_num)]
    omega
  have h2 : Int.tmod m 60 = Int.tmod (m % 1440) 60 := by
    rw [Int.tmod_eq_emod hm (by norm_num), Int.tmod_eq_emod hmod (by norm_num)]
    omega
  unfold minsToTime
  rw [h1, h2]

theorem minsToTime_congr (x y : Int) (hx : 0 ≤ x) (hy : 0 ≤ y)
    (h : x % 1440 = y % 1440) : minsToTime x = minsToTime y := by
  rw [minsToTime_emod x hx, minsToTime_emod y hy, h]

/-- Printing then parsing a valid "HH:mm" string is the identity. -/
theorem minsToTime_timeToMins (s : String) (hs : ValidTime s) :
    minsToTime (timeToMins s) = s := by
  obtain ⟨n, hn, rfl⟩ := hs
  rw [timeToMins_minsToTime ((n : Nat) : Int) (by omega)]
  have : ((n : Nat) : Int) % 1440 = ((n : Nat) : Int) := by omega
  rw [this]

/-- Coordinate pair (src/types.ts).  The JavaScript floating-point values are
modelled as rationals; the scheduling core never computes with them, and the
route solver consumes them only through an abstract distance function. -/
structure Coordinates where
  lat : Rat
  lng : Rat
deriving DecidableEq, Inhabited

/-- Activity (src/types.ts): one scheduled stop.  The fields the scheduling
core reads are kept explicit; the remaining display attributes (description,
type, pricing, images, links, ...) are opaque payload carried through
unchanged and are collapsed into a single field. -/
structure Activity where
  id : String
  name : String
  startTime : String
  endTime : String
  location : Coordinates
  lockedStartTime : Bool
  lockedDurationMinutes : Option Int
  payload : String
deriving DecidableEq, Inhabited

/-- TravelSegment (src/types.ts): directed edge between consecutive stops.
Mode strings are "WALKING" / "TRANSIT" / "DRIVING" / "TRAIN" / "BUS". -/
structure TravelSegment where
  fromId : String
  toId : String
  mode : String
  duration : String
  durationValue : Int
  distance : Option String
  transitFare : Option Int
  alternativeMode : Option String
  alternativeDuration : Option String
  alternativeLabel : Option String
deriving DecidableEq, Inhabited

/-- DayPlan (src/types.ts): one calendar day.  An absent travelSegments array
behaves exactly like an empty one in the Recalculator, so it is modelled as a
plain list. -/
structure DayPlan where
  id : String
  date : String
  city : String
  startTime : String
  activities : List Activity
  travelSegments : List TravelSegment
  notes : String
deriving DecidableEq, Inhabited

/-- Trip (src/types.ts): ordered days plus a title. -/
structure Trip where
  title : String
  days : List DayPlan
deriving DecidableEq, Inhabited

/-- Effective duration computed by recalculateSchedule (part_000 lines 174-176):
durationMins = act.lockedDurationMinutes || (timeToMins(endTime) - timeToMins(startTime)),
with JavaScript truthiness (an absent or zero lockedDurationMinutes falls
through), then the fallback: if durationMins <= 0 it becomes 60. -/
def effectiveDuration (a : Activity) : Int :=
  let base : Int :=
    match a.lockedDurationMinutes with
    | some d => if d = 0 then timeToMins a.endTime - timeToMins a.startTime else d
    | none => timeToMins a.endTime - timeToMins a.startTime
  if base ≤ 0 then 60 else base

/-- Travel minutes for the hop into an activity (part_000 lines 193-198): the
matching segment's ceil(durationValue / 60), else a flat 30-minute buffer. -/
def travelMinutes (travelSegments : List TravelSegment) (prevId actId : String) : Int :=
  match travelSegments.find? (fun s => s.fromId == prevId && s.toId == actId) with
  | some s => Int.fdiv (s.durationValue + 59) 60
  | none => 30

/-- The new start minute chosen by one recalculateSchedule iteration
(part_000 lines 178-202): the existing start for an anchor, the rounded day
start for the first activity, else the previous computed end (re-parsed from
its stored string) plus the hop's travel minutes, rounded up to 5.  prev
carries the previous INPUT activity (whose id is matched against segments)
together with the previous COMPUTED result. -/
def startMins (travelSegments : List TravelSegment) (dayStartMins : Int)
    (prev : Option (Activity × Activity)) (act : Activity) : Int :=
  if act.lockedStartTime then timeToMins act.startTime
  else
    match prev with
    | none => roundTo5 dayStartMins
    | some (prevAct, prevResult) =>
        roundTo5 (timeToMins prevResult.endTime +
          travelMinutes travelSegments prevAct.id act.id)

/-- One iteration of the recalculateSchedule loop (part_000 lines 170-211):
emit the activity with startTime/endTime replaced, all other fields intact. -/
def recalcStep (travelSegments : List TravelSegment) (dayStartMins : Int)
    (prev : Option (Activity × Activity)) (act : Activity) : Activity :=
  { act with
      startTime := minsToTime (startMins travelSegments dayStartMins prev act),
      endTime := minsToTime (startMins travelSegments dayStartMins prev act +
        effectiveDuration act) }

/-- The recalculateSchedule loop over the whole list. -/
def recalcGo (travelSegments : List TravelSegment) (dayStartMins : Int) :
    Option (Activity × Activity) → List Activity → List Activity
  | _, [] => []
  | prev, act :: rest =>
    let r := recalcStep travelSegments dayStartMins prev act
    r :: recalcGo travelSegments dayStartMins (some (act, r)) rest

/-- recalculateSchedule (src/unnamed/part_000 lines 160-214).  The source's
optional travelSegments argument left undefined never matches a hop, exactly
like the empty list; an empty activity list returns unchanged, which the
recursion already does. -/
def recalculateSchedule (activities : List Activity) (dayStartTime : String)
    (travelSegments : List TravelSegment) : List Activity :=
  recalcGo travelSegments (timeToMins dayStartTime) none activities

/-- All Activity fields other than startTime and endTime. -/
def frameOf (a : Activity) :
    String × String × Coordinates × Bool × Option Int × String :=
  (a.id, a.name, a.location, a.lockedStartTime, a.lockedDurationMinutes, a.payload)

theorem effectiveDuration_pos (a : Activity) : 1 ≤ effectiveDuration a := by
  unfold effectiveDuration
  cases a.lockedDurationMinutes with
  | none => dsimp only; split <;> omega
  | some d => dsimp only; split <;> split <;> omega

theorem frameOf_recalcStep (segs : List TravelSegment) (ds : Int)
    (prev : Option (Activity × Activity)) (a : Activity) :
    frameOf (recalcStep segs ds prev a) = frameOf a := rfl

theorem recalcGo_map_frameOf (segs : List TravelSegment) (ds : Int) :
    ∀ (acts : List Activity) (prev : Option (Activity × Activity)),
      (recalcGo segs ds prev acts).map frameOf = acts.map frameOf := by
  intro acts
  induction acts with
  | nil => intro prev; rfl
  | cons a rest ih =>
    intro prev
    show frameOf (recalcStep segs ds prev a) ::
        (recalcGo segs ds (some (a, recalcStep segs ds prev a)) rest).map frameOf
      = frameOf a :: rest.map frameOf
    rw [frameOf_recalcStep, ih]

theorem recalcGo_length (segs : List TravelSegment) (ds : Int)
    (acts : List Activity) (prev : Option (Activity × Activity)) :
    (recalcGo segs ds prev acts).length = acts.length := by
  have h := recalcGo_map_frameOf segs ds acts prev
  have h1 : ((recalcGo segs ds prev acts).map frameOf).length = (acts.map frameOf).length := by
    rw [h]
  simpa using h1

theorem recalculateSchedule_length (acts : List Activity) (t : String)
    (segs : List TravelSegment) :
    (recalculateSchedule acts t segs).length = acts.length :=
  recalcGo_length segs (timeToMins t) acts none

theorem travelMinutes_nonneg (segs : List TravelSegment)
    (hseg : ∀ s ∈ segs, 0 ≤ s.durationValue) (p a : String) :
    0 ≤ travelMinutes segs p a := by
  unfold travelMinutes
  cases hf : segs.find? (fun s => s.fromId == p && s.toId == a) with
  | none => norm_num
  | some s =>
    have hmem : s ∈ segs := List.mem_of_find?_eq_some hf
    have hd : 0 ≤ s.durationValue := hseg s hmem
    show 0 ≤ Int.fdiv (s.durationValue + 59) 60
    rw [Int.fdiv_eq_ediv _ (by norm_num : (0:Int) ≤ 60)]
    exact Int.ediv_nonneg (by omega) (by norm_num)

theorem startMins_nonneg (segs : List TravelSegment) (ds : Int)
    (hseg : ∀ s ∈ segs, 0 ≤ s.durationValue) (hds : 0 ≤ ds)
    (prev : Option (Activity × Activity)) (act : Activity) :
    0 ≤ startMins segs ds prev act := by
  unfold startMins
  split
  · exact timeToMins_nonneg _
  · cases prev with
    | none => exact roundTo5_nonneg _ hds
    | some pr =>
      exact roundTo5_nonneg _
        (add_nonneg (timeToMins_nonneg _) (travelMinutes_nonneg segs hseg _ _))

/-- Every output entry of the loop is its input entry with both times replaced
by the print of a nonnegative start minute and of that start plus the input's
effective duration. -/
theorem recalcGo_shape (segs : List TravelSegment) (ds : Int)
    (hseg : ∀ s ∈ segs, 0 ≤ s.durationValue) (hds : 0 ≤ ds) :
    ∀ (acts : List Activity) (prev : Option (Activity × Activity)) (i : Nat),
      i < acts.length →
      ∃ s : Int, 0 ≤ s ∧
        (recalcGo segs ds prev acts).getD i default
          = { acts.getD i default with
              startTime := minsToTime s,
              endTime := minsToTime (s + effectiveDuration (acts.getD i default)) } := by
  intro acts
  induction acts with
  | nil => intro prev i hi; simp at hi
  | cons a rest ih =>
    intro prev i hi
    cases i with
    | zero =>
      refine ⟨startMins segs ds prev a, startMins_nonneg segs ds hseg hds prev a, ?_⟩
      rfl
    | succ k =>
      have hk : k < rest.length := by simpa using hi
      exact ih (some (a, recalcStep segs ds prev a)) k hk

/-- An anchored activity's computed start is the re-print of its parsed input
start, independently of everything around it. -/
theorem recalcGo_locked_start (segs : List TravelSegment) (ds : Int) :
    ∀ (acts : List Activity) (prev : Option (Activity × Activity)) (i : Nat),
      i < acts.length →
      (acts.getD i default).lockedStartTime = true →
      ((recalcGo segs ds prev acts).getD i default).startTime
        = minsToTime (timeToMins (acts.getD i default).startTime) := by
  intro acts
  induction acts with
  | nil => intro prev i hi; simp at hi
  | cons a rest ih =>
    intro prev i hi hlock
    cases i with
    | zero =>
      show (recalcStep segs ds prev a).startTime
        = minsToTime (timeToMins ((a :: rest).getD 0 default).startTime)
      have ha : a.lockedStartTime = true := hlock
      simp [recalcStep, startMins, ha]
    | succ k =>
      have hk : k < rest.length := by simpa using hi
      exact ih (some (a, recalcStep segs ds prev a)) k hk hlock

/-- A non-first output entry is the step applied to the input entry with the
previous input activity and previous output entry as context. -/
theorem recalcGo_consec (segs : List TravelSegment) (ds : Int) :
    ∀ (acts : List Activity) (prev : Option (Activity × Activity)) (i : Nat),
      i + 1 < acts.length →
      (recalcGo segs ds prev acts).getD (i + 1) default
        = recalcStep segs ds
            (some (acts.getD i default, (recalcGo segs ds prev acts).getD i default))
            (acts.getD (i + 1) default) := by
  intro acts
  induction acts with
  | nil => intro prev i hi; simp at hi
  | cons a rest ih =>
    intro prev i hi
    cases i with
    | zero =>
      cases rest with
      | nil => simp at hi
      | cons b rest2 => rfl
    | succ k =>
      have hk : k + 1 < rest.length := by simpa using hi
      exact ih (some (a, recalcStep segs ds prev a)) k hk

theorem startMins_unlocked_none (segs : List TravelSegment) (ds : Int)
    (a : Activity) (ha : a.lockedStartTime = false) :
    startMins segs ds none a = roundTo5 ds := by
  simp [startMins, ha]

theorem startMins_unlocked_some (segs : List TravelSegment) (ds : Int)
    (p r : Activity) (a : Activity) (ha : a.lockedStartTime = false) :
    startMins segs ds (some (p, r)) a
      = roundTo5 (timeToMins r.endTime + travelMinutes segs p.id a.id) := by
  simp [startMins, ha]

/-- JavaScript truthiness of lockedDurationMinutes: present and nonzero. -/
def lockedDurTruthy (a : Activity) : Bool :=
  match a.lockedDurationMinutes with
  | some d => decide (d ≠ 0)
  | none => false

theorem effectiveDuration_truthy (a : Activity) (d : Int)
    (hd : a.lockedDurationMinutes = some d) (hdz : d ≠ 0) :
    effectiveDuration a = if d ≤ 0 then 60 else d := by
  simp [effectiveDuration, hd, hdz]

theorem effectiveDuration_falsy (a : Activity)
    (h : a.lockedDurationMinutes = none ∨ a.lockedDurationMinutes = some 0) :
    effectiveDuration a =
      (if timeToMins a.endTime - timeToMins a.startTime ≤ 0 then 60
       else timeToMins a.endTime - timeToMins a.startTime) := by
  rcases h with h | h <;> simp [effectiveDuration, h]

/-- Re-running the step on its own output reproduces the output, for an
unanchored activity, provided the previous contexts agree on the computed
result and the previous input's id, and (for an activity whose duration is
re-derived from its stored times) the stored times do not wrap past
midnight. -/
theorem recalcStep_idem (segs : List TravelSegment) (ds : Int)
    (hseg : ∀ s ∈ segs, 0 ≤ s.durationValue) (hds : 0 ≤ ds)
    (prevA prevB : Option (Activity × Activity))
    (hprev : (prevA = none ∧ prevB = none) ∨
      ∃ pa pb r, prevA = some (pa, r) ∧ prevB = some (pb, r) ∧ pa.id = pb.id)
    (a : Activity) (ha : a.lockedStartTime = false)
    (hdur : lockedDurTruthy a = true ∨
      timeToMins (recalcStep segs ds prevA a).startTime
        < timeToMins (recalcStep segs ds prevA a).endTime) :
    recalcStep segs ds prevB (recalcStep segs ds prevA a) = recalcStep segs ds prevA a := by
  have hlock1 : (recalcStep segs ds prevA a).lockedStartTime = false := ha
  have hid1 : (recalcStep segs ds prevA a).id = a.id := rfl
  have hld1 : (recalcStep segs ds prevA a).lockedDurationMinutes = a.lockedDurationMinutes := rfl
  have hs1nn : 0 ≤ startMins segs ds prevA a := startMins_nonneg segs ds hseg hds prevA a
  have hd1pos : 1 ≤ effectiveDuration a := effectiveDuration_pos a
  have hstart : startMins segs ds prevB (recalcStep segs ds prevA a)
      = startMins segs ds prevA a := by
    rcases hprev with ⟨hA, hB⟩ | ⟨pa, pb, r, hA, hB, hid⟩
    · subst hA; subst hB
      rw [startMins_unlocked_none segs ds _ hlock1, startMins_unlocked_none segs ds a ha]
    · subst hA; subst hB
      rw [startMins_unlocked_some segs ds _ _ _ hlock1,
        startMins_unlocked_some segs ds _ _ _ ha, hid1, hid]
  have estart : (recalcStep segs ds prevA a).startTime
      = minsToTime (startMins segs ds prevA a) := rfl
  have eend : (recalcStep segs ds prevA a).endTime
      = minsToTime (startMins segs ds prevA a + effectiveDuration a) := rfl
  by_cases ht : lockedDurTruthy a = true
  · obtain ⟨d, hd, hdz⟩ : ∃ d, a.lockedDurationMinutes = some d ∧ d ≠ 0 := by
      unfold lockedDurTruthy at ht
      cases hld : a.lockedDurationMinutes with
      | none => rw [hld] at ht; simp at ht
      | some d => rw [hld] at ht; exact ⟨d, rfl, by simpa using ht⟩
    have hd2 : effectiveDuration (recalcStep segs ds prevA a) = effectiveDuration a := by
      rw [effectiveDuration_truthy _ d (hld1.trans hd) hdz,
        effectiveDuration_truthy a d hd hdz]
    show { recalcStep segs ds prevA a with
        startTime := minsToTime (startMins segs ds prevB (recalcStep segs ds prevA a)),
        endTime := minsToTime (startMins segs ds prevB (recalcStep segs ds prevA a)
          + effectiveDuration (recalcStep segs ds prevA a)) }
      = recalcStep segs ds prevA a
    rw [hstart, hd2]
    rfl
  · have hlt : timeToMins (recalcStep segs ds prevA a).startTime
        < timeToMins (recalcStep segs ds prevA a).endTime := hdur.resolve_left ht
    have hfalsy : a.lockedDurationMinutes = none ∨ a.lockedDurationMinutes = some 0 := by
      unfold lockedDurTruthy at ht
      cases hld : a.lockedDurationMinutes with
      | none => exact Or.inl rfl
      | some d =>
        rw [hld] at ht
        have hdz : d = 0 := by
          by_contra hne
          exact ht (by simpa using hne)
        rw [hdz]
        exact Or.inr rfl
    have htm_start : timeToMins (recalcStep segs ds prevA a).startTime
        = (startMins segs ds prevA a) % 1440 := by
      rw [estart]; exact timeToMins_minsToTime _ hs1nn
    have htm_end : timeToMins (recalcStep segs ds prevA a).endTime
        = (startMins segs ds prevA a + effectiveDuration a) % 1440 := by
      rw [eend]; exact timeToMins_minsToTime _ (by omega)
    rw [htm_start, htm_end] at hlt
    have hfalsy1 : (recalcStep segs ds prevA a).lockedDurationMinutes = none ∨
        (recalcStep segs ds prevA a).lockedDurationMinutes = some 0 := by
      rw [hld1]; exact hfalsy
    have hd2 : effectiveDuration (recalcStep segs ds prevA a)
        = timeToMins (recalcStep segs ds prevA a).endTime
          - timeToMins (recalcStep segs ds prevA a).startTime := by
      rw [effectiveDuration_falsy _ hfalsy1]
      rw [if_neg (by rw [htm_start, htm_end]; omega)]
    rw [htm_start, htm_end] at hd2
    have hcong : minsToTime (startMins segs ds prevA a
          + effectiveDuration (recalcStep segs ds prevA a))
        = minsToTime (startMins segs ds prevA a + effectiveDuration a) := by
      apply minsToTime_congr
      · rw [hd2]; omega
      · omega
      · rw [hd2]; omega
    show { recalcStep segs ds prevA a with
        startTime := minsToTime (startMins segs ds prevB (recalcStep segs ds prevA a)),
        endTime := minsToTime (startMins segs ds prevB (recalcStep segs ds prevA a)
          + effectiveDuration (recalcStep segs ds prevA a)) }
      = recalcStep segs ds prevA a
    rw [hstart, hcong]
    rfl

/-- Running the loop a second time over its own output is the identity, for an
anchor-free input whose first-pass output never wraps past midnight. -/
theorem recalcGo_idem (segs : List TravelSegment) (ds : Int)
    (hseg : ∀ s ∈ segs, 0 ≤ s.durationValue) (hds : 0 ≤ ds) :
    ∀ (xs : List Activity) (prevA prevB : Option (Activity × Activity)),
      ((prevA = none ∧ prevB = none) ∨
        ∃ pa pb r, prevA = some (pa, r) ∧ prevB = some (pb, r) ∧ pa.id = pb.id) →
      (∀ a ∈ xs, a.lockedStartTime = false) →
      (∀ r ∈ recalcGo segs ds prevA xs,
        lockedDurTruthy r = true ∨ timeToMins r.startTime < timeToMins r.endTime) →
      recalcGo segs ds prevB (recalcGo segs ds prevA xs) = recalcGo segs ds prevA xs := by
  intro xs
  induction xs with
  | nil => intro prevA prevB hprev hanch hw; rfl
  | cons a rest ih =>
    intro prevA prevB hprev hanch hw
    have ha : a.lockedStartTime = false := hanch a (List.mem_cons_self a rest)
    have hmemr : recalcStep segs ds prevA a ∈ recalcGo segs ds prevA (a :: rest) :=
      List.mem_cons_self _ _
    have hstep : recalcStep segs ds prevB (recalcStep segs ds prevA a)
        = recalcStep segs ds prevA a := by
      apply recalcStep_idem segs ds hseg hds prevA prevB hprev a ha
      rcases hw _ hmemr with h | h
      · exact Or.inl h
      · exact Or.inr h
    show recalcStep segs ds prevB (recalcStep segs ds prevA a) ::
        recalcGo segs ds
          (some (recalcStep segs ds prevA a,
            recalcStep segs ds prevB (recalcStep segs ds prevA a)))
          (recalcGo segs ds (some (a, recalcStep segs ds prevA a)) rest)
      = recalcStep segs ds prevA a ::
          recalcGo segs ds (some (a, recalcStep segs ds prevA a)) rest
    rw [hstep]
    rw [ih (some (a, recalcStep segs ds prevA a))
        (some (recalcStep segs ds prevA a, recalcStep segs ds prevA a))
        (Or.inr ⟨a, recalcStep segs ds prevA a, recalcStep segs ds prevA a, rfl, rfl, rfl⟩)
        (fun x hx => hanch x (List.mem_cons_of_mem a hx))
        (fun r hr => hw r (List.mem_cons_of_mem _ hr))]

/-- Effective duration exactly as the spec words it: lockedDurationMinutes
when set and strictly positive, else endTime - startTime computed from the
input activity, with 60 substituted when that derived difference is zero or
negative. -/
def effectiveDurationSpec (a : Activity) : Int :=
  match a.lockedDurationMinutes with
  | some d =>
      if 0 < d then d
      else
        if timeToMins a.endTime - timeToMins a.startTime ≤ 0 then 60
        else timeToMins a.endTime - timeToMins a.startTime
  | none =>
      if timeToMins a.endTime - timeToMins a.startTime ≤ 0 then 60
      else timeToMins a.endTime - timeToMins a.startTime

/-- Concrete unlocked 60-minute activity used in the end-to-end scenarios. -/
def shrine : Activity :=
  { id := "shrine", name := "Shrine", startTime := "10:00", endTime := "11:00",
    location := { lat := 0, lng := 0 }, lockedStartTime := false,
    lockedDurationMinutes := none, payload := "" }

/-- Concrete unlocked 90-minute activity used in the end-to-end scenarios. -/
def museum : Activity :=
  { id := "museum", name := "Museum", startTime := "12:00", endTime := "13:30",
    location := { lat := 1, lng := 1 }, lockedStartTime := false,
    lockedDurationMinutes := none, payload := "" }

/-- Concrete anchored activity at 14:00. -/
def anchoredMuseum : Activity :=
  { id := "museum", name := "Museum", startTime := "14:00", endTime := "15:30",
    location := { lat := 1, lng := 1 }, lockedStartTime := true,
    lockedDurationMinutes := none, payload := "" }

/-- Concrete input with a NEGATIVE lockedDurationMinutes: truthy in the
source, so the code uses it and then hits the 60-minute fallback, whereas the
claim's reading (set AND strictly positive) would fall back to the 30-minute
span of the input times. -/
def negLockActivity : Activity :=
  { id := "neg", name := "Temple", startTime := "09:00", endTime := "09:30",
    location := { lat := 0, lng := 0 }, lockedStartTime := false,
    lockedDurationMinutes := some (-5), payload := "" }

/-- Concrete unlocked 100-minute activity that, rescheduled from a 23:20 day
start, wraps past midnight. -/
def overnightActivity : Activity :=
  { id := "night", name := "Night walk", startTime := "00:00", endTime := "01:40",
    location := { lat := 0, lng := 0 }, lockedStartTime := false,
    lockedDurationMinutes := none, payload := "" }

/-- Claim C1 (amended): after a Recalculator pass, every stored endTime equals
the stored startTime plus the code's effective duration, modulo 1440 minutes.
The code's effective duration is lockedDurationMinutes when set and NONZERO
(a negative locked value then trips the 60-minute fallback rather than
deferring to endTime - startTime), else the input's endTime - startTime, with
60 substituted whenever the selected value is zero or negative.  Travel
segments are assumed to carry nonnegative durations (they hold seconds). -/
theorem C1_endTime_eq_start_plus_effectiveDuration
    (acts : List Activity) (t : String) (segs : List TravelSegment)
    (hseg : ∀ s ∈ segs, 0 ≤ s.durationValue) (i : Nat) (hi : i < acts.length) :
    timeToMins (((recalculateSchedule acts t segs).getD i default).endTime)
      = (timeToMins (((recalculateSchedule acts t segs).getD i default).startTime)
          + effectiveDuration (acts.getD i default)) % 1440 := by
  obtain ⟨s, hs, hshape⟩ :=
    recalcGo_shape segs (timeToMins t) hseg (timeToMins_nonneg t) acts none i hi
  have hd := effectiveDuration_pos (acts.getD i default)
  unfold recalculateSchedule
  rw [hshape]
  show timeToMins (minsToTime (s + effectiveDuration (acts.getD i default)))
    = (timeToMins (minsToTime s) + effectiveDuration (acts.getD i default)) % 1440
  rw [timeToMins_minsToTime s hs, timeToMins_minsToTime _ (by omega)]
  omega

/-- Witness for C1 at a concrete one-activity day. -/
theorem C1_witness :
    (∀ s ∈ ([] : List TravelSegment), 0 ≤ s.durationValue) ∧
    timeToMins (((recalculateSchedule [shrine] "09:00" []).getD 0 default).endTime)
      = (timeToMins (((recalculateSchedule [shrine] "09:00" []).getD 0 default).startTime)
          + effectiveDuration (([shrine] : List Activity).getD 0 default)) % 1440 :=
  ⟨by intro s hs; exact absurd hs (List.not_mem_nil s),
    C1_endTime_eq_start_plus_effectiveDuration [shrine] "09:00" []
      (by intro s hs; exact absurd hs (List.not_mem_nil s)) 0 (by norm_num)⟩

/-- Counterexample to C1 as stated: with lockedDurationMinutes = -5 (set but
not positive) and a 30-minute input span, the claim's effective duration is
30, but the code stores a 60-minute span. -/
theorem C1_counterexample :
    ¬ (timeToMins (((recalculateSchedule [negLockActivity] "09:00" []).getD 0 default).endTime)
        = (timeToMins (((recalculateSchedule [negLockActivity] "09:00" []).getD 0 default).startTime)
            + effectiveDurationSpec negLockActivity) % 1440) := by decide

/-- Claim C2: anchor invariance.  An activity with lockedStartTime keeps its
startTime string across a Recalculator pass, whatever the surrounding list,
day start and travel segments are; the stored time is a wall-clock "HH:mm"
string as the data model requires. -/
theorem C2_anchor_invariance
    (acts : List Activity) (t : String) (segs : List TravelSegment)
    (i : Nat) (hi : i < acts.length)
    (hlock : (acts.getD i default).lockedStartTime = true)
    (hv : ValidTime (acts.getD i default).startTime) :
    ((recalculateSchedule acts t segs).getD i default).startTime
      = (acts.getD i default).startTime := by
  unfold recalculateSchedule
  rw [recalcGo_locked_start segs (timeToMins t) acts none i hi hlock]
  exact minsToTime_timeToMins _ hv

/-- Witness for C2: the 14:00 anchor survives a pass behind a shrine. -/
theorem C2_witness :
    (([shrine, anchoredMuseum] : List Activity).getD 1 default).lockedStartTime = true ∧
    ((recalculateSchedule [shrine, anchoredMuseum] "09:00" []).getD 1 default).startTime
      = (([shrine, anchoredMuseum] : List Activity).getD 1 default).startTime :=
  ⟨rfl, C2_anchor_invariance [shrine, anchoredMuseum] "09:00" [] 1 (by norm_num) rfl
    ⟨840, by norm_num, by decide⟩⟩

/-- Claim C3: default buffer.  For consecutive unanchored activities with no
matching travel segment, the second's recalculated start is the print of the
first's computed end plus 30 minutes rounded up to the next multiple of 5;
and the concrete scenario day start 09:00, Shrine(60, unlocked),
Museum(90, unlocked), no segments, yields Shrine 09:00-10:00 and
Museum 10:30-12:00. -/
theorem C3_default_buffer_and_scenario
    (acts : List Activity) (t : String) (segs : List TravelSegment) (i : Nat)
    (hi : i + 1 < acts.length)
    (h1 : (acts.getD i default).lockedStartTime = false)
    (h2 : (acts.getD (i + 1) default).lockedStartTime = false)
    (hno : ∀ s ∈ segs,
      ¬(s.fromId = (acts.getD i default).id ∧ s.toId = (acts.getD (i + 1) default).id)) :
    (((recalculateSchedule acts t segs).getD (i + 1) default).startTime
        = minsToTime (roundTo5
            (timeToMins (((recalculateSchedule acts t segs).getD i default).endTime) + 30)))
    ∧ ((recalculateSchedule [shrine, museum] "09:00" []).map
          (fun a => (a.startTime, a.endTime))
        = [("09:00", "10:00"), ("10:30", "12:00")]) := by
  constructor
  · have hfind : segs.find? (fun s =>
        s.fromId == (acts.getD i default).id && s.toId == (acts.getD (i + 1) default).id)
          = none := by
      rw [List.find?_eq_none]
      intro x hx hx2
      rw [Bool.and_eq_true, beq_iff_eq, beq_iff_eq] at hx2
      exact hno x hx hx2
    unfold recalculateSchedule
    rw [recalcGo_consec segs (timeToMins t) acts none i hi]
    show minsToTime (startMins segs (timeToMins t)
        (some (acts.getD i default, (recalcGo segs (timeToMins t) none acts).getD i default))
        (acts.getD (i + 1) default)) = _
    rw [startMins_unlocked_some _ _ _ _ _ h2]
    unfold travelMinutes
    rw [hfind]
  · decide

/-- Witness for C3 at the scenario input itself. -/
theorem C3_witness :
    ((0 : Nat) + 1 < ([shrine, museum] : List Activity).length) ∧
    ((recalculateSchedule [shrine, museum] "09:00" []).getD 1 default).startTime
      = minsToTime (roundTo5
          (timeToMins (((recalculateSchedule [shrine, museum] "09:00" []).getD 0 default).endTime)
            + 30)) :=
  ⟨by norm_num,
    (C3_default_buffer_and_scenario [shrine, museum] "09:00" [] 0 (by norm_num) rfl rfl
      (by intro s hs; exact absurd hs (List.not_mem_nil s))).1⟩

/-- Claim C4: order and frame preservation.  A Recalculator pass keeps the
length and, elementwise in order, every field other than startTime/endTime
(ids in particular). -/
theorem C4_frame_preservation
    (acts : List Activity) (t : String) (segs : List TravelSegment) :
    (recalculateSchedule acts t segs).length = acts.length ∧
    (recalculateSchedule acts t segs).map frameOf = acts.map frameOf :=
  ⟨recalculateSchedule_length acts t segs,
    recalcGo_map_frameOf segs (timeToMins t) acts none⟩

/-- Claim C5 (amended): the Recalculator is idempotent on anchor-free input
provided travel segment durations are nonnegative and no activity of the
first pass's output wraps past midnight: each output activity either has a
set-and-nonzero lockedDurationMinutes or its stored endTime parses strictly
later than its stored startTime.  (The counterexample shows the claim fails
without the no-wrap condition.) -/
theorem C5_idempotent_anchor_free
    (xs : List Activity) (t : String) (segs : List TravelSegment)
    (hanch : ∀ a ∈ xs, a.lockedStartTime = false)
    (hseg : ∀ s ∈ segs, 0 ≤ s.durationValue)
    (hwrap : ∀ r ∈ recalculateSchedule xs t segs,
      lockedDurTruthy r = true ∨ timeToMins r.startTime < timeToMins r.endTime) :
    recalculateSchedule (recalculateSchedule xs t segs) t segs
      = recalculateSchedule xs t segs :=
  recalcGo_idem segs (timeToMins t) hseg (timeToMins_nonneg t) xs none none
    (Or.inl ⟨rfl, rfl⟩) hanch hwrap

/-- Witness for C5 at the two-activity scenario day. -/
theorem C5_witness :
    (∀ r ∈ recalculateSchedule [shrine, museum] "09:00" [],
      lockedDurTruthy r = true ∨ timeToMins r.startTime < timeToMins r.endTime) ∧
    recalculateSchedule (recalculateSchedule [shrine, museum] "09:00" []) "09:00" []
      = recalculateSchedule [shrine, museum] "09:00" [] :=
  ⟨by decide,
    C5_idempotent_anchor_free [shrine, museum] "09:00" [] (by decide)
      (by intro s hs; exact absurd hs (List.not_mem_nil s)) (by decide)⟩

/-- Counterexample to C5 as stated: an anchor-free list whose single activity
is pushed across midnight (day start 23:20, 100-minute duration) is NOT a
fixed point of a second pass: the first pass stores 23:20-01:00, the second
re-derives a negative span, falls back to 60 minutes and stores 23:20-00:20. -/
theorem C5_counterexample :
    (∀ a ∈ ([overnightActivity] : List Activity), a.lockedStartTime = false) ∧
    recalculateSchedule (recalculateSchedule [overnightActivity] "23:20" []) "23:20" []
      ≠ recalculateSchedule [overnightActivity] "23:20" [] := by
  constructor
  · decide
  · decide

/-- The "HH:mm" string for m reduced modulo 1440 — mathematical modulo, into
the range [0, 1440) — with both fields zero-padded to two digits: the
conversion the spec ascribes to minutesToTime. -/
def specTimeString (m : Int) : String :=
  padStart2 (toString ((m % 1440) / 60)) ++ ":" ++ padStart2 (toString ((m % 1440) % 60))

/-- Claim C9 (amended): for every NONNEGATIVE integer m, minsToTime returns
the zero-padded "HH:mm" string of m reduced modulo 1440.  For negative m the
JavaScript remainder keeps the sign of the dividend, so the output contains a
minus sign instead of wrapping (see the counterexample). -/
theorem C9_minsToTime_wraps (m : Int) (hm : 0 ≤ m) :
    minsToTime m = specTimeString m := by
  have h1 : Int.tmod (Int.fdiv m 60) 24 = (m % 1440) / 60 := by
    rw [Int.fdiv_eq_ediv m (by norm_num)]
    rw [Int.tmod_eq_emod (Int.ediv_nonneg hm (by norm_num)) (by norm_num)]
    omega
  have h2 : Int.tmod m 60 = (m % 1440) % 60 := by
    rw [Int.tmod_eq_emod hm (by norm_num)]
    omega
  unfold minsToTime specTimeString
  rw [h1, h2]

/-- Witness for C9 at a value above 1440. -/
theorem C9_witness : (0 : Int) ≤ 1500 ∧ minsToTime 1500 = specTimeString 1500 :=
  ⟨by norm_num, C9_minsToTime_wraps 1500 (by norm_num)⟩

/-- Counterexample to C9 as stated: minsToTime (-60) is "-1:00", not the
"23:00" that reduction modulo 1440 prescribes. -/
theorem C9_counterexample : minsToTime (-60) ≠ specTimeString (-60) := by decide

/-- The walking-vs-transit decision block of calculateFastestRoute
(src/services/mapService.ts lines 271-307), extracted as the pure selection
policy applied when both estimates for a leg are available: both durations
are in seconds, CLOSE_MATCH_MINS is 15. -/
def selectSegment (walkSeg transitSeg : TravelSegment) : TravelSegment :=
  if walkSeg.durationValue > 45 * 60 then transitSeg
  else if transitSeg.durationValue < walkSeg.durationValue - 15 * 60 then transitSeg
  else if walkSeg.durationValue < transitSeg.durationValue - 15 * 60 then walkSeg
  else if transitSeg.durationValue ≤ walkSeg.durationValue then
    { transitSeg with
        alternativeMode := some "WALKING",
        alternativeDuration := some walkSeg.duration,
        alternativeLabel := some ("Walk: " ++ walkSeg.duration) }
  else
    { walkSeg with
        alternativeMode := some transitSeg.mode,
        alternativeDuration := some transitSeg.duration,
        alternativeLabel := some
          ((if transitSeg.mode = "TRAIN" then "Train" else "Bus")
            ++ ": " ++ transitSeg.duration) }

/-- Concrete 50-minute walking estimate with no alternative annotations. -/
def walkSeg50 : TravelSegment :=
  { fromId := "start", toId := "shrine", mode := "WALKING", duration := "50 min",
    durationValue := 3000, distance := none, transitFare := none,
    alternativeMode := none, alternativeDuration := none, alternativeLabel := none }

/-- Concrete 40-minute transit estimate with no alternative annotations. -/
def transitSeg40 : TravelSegment :=
  { fromId := "start", toId := "shrine", mode := "TRAIN", duration := "40 min",
    durationValue := 2400, distance := none, transitFare := some 200,
    alternativeMode := none, alternativeDuration := none, alternativeLabel := none }

/-- Concrete 20-minute walking estimate. -/
def walkSeg20 : TravelSegment :=
  { fromId := "start", toId := "shrine", mode := "WALKING", duration := "20 min",
    durationValue := 1200, distance := none, transitFare := none,
    alternativeMode := none, alternativeDuration := none, alternativeLabel := none }

/-- Concrete 22-minute transit estimate. -/
def transitSeg22 : TravelSegment :=
  { fromId := "start", toId := "shrine", mode := "TRAIN", duration := "22 min",
    durationValue := 1320, distance := none, transitFare := some 180,
    alternativeMode := none, alternativeDuration := none, alternativeLabel := none }

/-- Claim C6: the selection policy.  Walking above 45 minutes always yields
the transit segment unchanged (hence with no alternative when the transit
estimate carries none); in the competitive band (difference at most 15
minutes either way) the strictly faster mode is primary with the other
attached as the alternative; and the two boundary instances from the spec
behave as stated. -/
theorem C6_selection_policy (walkSeg transitSeg : TravelSegment) :
    (walkSeg.durationValue > 45 * 60 → selectSegment walkSeg transitSeg = transitSeg)
    ∧ (walkSeg.durationValue ≤ 45 * 60 →
        walkSeg.durationValue - transitSeg.durationValue ≤ 15 * 60 →
        transitSeg.durationValue - walkSeg.durationValue ≤ 15 * 60 →
        (transitSeg.durationValue < walkSeg.durationValue →
          selectSegment walkSeg transitSeg
            = { transitSeg with
                alternativeMode := some "WALKING",
                alternativeDuration := some walkSeg.duration,
                alternativeLabel := some ("Walk: " ++ walkSeg.duration) })
        ∧ (walkSeg.durationValue < transitSeg.durationValue →
          selectSegment walkSeg transitSeg
            = { walkSeg with
                alternativeMode := some transitSeg.mode,
                alternativeDuration := some transitSeg.duration,
                alternativeLabel := some
                  ((if transitSeg.mode = "TRAIN" then "Train" else "Bus")
                    ++ ": " ++ transitSeg.duration) }))
    ∧ (selectSegment walkSeg50 transitSeg40 = transitSeg40
        ∧ (selectSegment walkSeg50 transitSeg40).alternativeLabel = none
        ∧ (selectSegment walkSeg50 transitSeg40).alternativeMode = none)
    ∧ selectSegment walkSeg20 transitSeg22
        = { walkSeg20 with
            alternativeMode := some "TRAIN",
            alternativeDuration := some "22 min",
            alternativeLabel := some "Train: 22 min" } := by
  refine ⟨?_, ?_, ⟨by decide, by decide, by decide⟩, by decide⟩
  · intro h
    unfold selectSegment
    rw [if_pos h]
  · intro h45 hd1 hd2
    constructor
    · intro hlt
      unfold selectSegment
      rw [if_neg (by omega), if_neg (by omega), if_neg (by omega), if_pos (by omega)]
    · intro hlt
      unfold selectSegment
      rw [if_neg (by omega), if_neg (by omega), if_neg (by omega), if_neg (by omega)]

/-- Witness for C6: the two boundary instances discharge the hypotheses. -/
theorem C6_witness :
    walkSeg50.durationValue > 45 * 60 ∧
    selectSegment walkSeg50 transitSeg40 = transitSeg40 :=
  ⟨by decide, (C6_selection_policy walkSeg50 transitSeg40).1 (by decide)⟩

theorem recalculateSchedule_map_frameOf (acts : List Activity) (t : String)
    (segs : List TravelSegment) :
    (recalculateSchedule acts t segs).map frameOf = acts.map frameOf :=
  recalcGo_map_frameOf segs (timeToMins t) acts none

/-- Model of String.prototype.trim: strip whitespace from both ends of the
character list (structurally, so that it evaluates in proofs). -/
def jsTrim (s : String) : String :=
  String.mk (((s.data.dropWhile Char.isWhitespace).reverse.dropWhile
    Char.isWhitespace).reverse)

/-- The per-day branch of handleDeleteActivity (src/unnamed/part_000 lines
238-267): drop activities whose trimmed string id equals the trimmed target
id, then recalculate — the source omits the travelSegments argument here, so
the pass runs with no segments. -/
def dayDeleteActivity (day : DayPlan) (activityId : String) : DayPlan :=
  { day with
      activities :=
        recalculateSchedule
          (day.activities.filter (fun a => !(jsTrim a.id == jsTrim activityId)))
          day.startTime [] }

/-- handleDeleteActivity over the whole trip: transform the matching day. -/
def handleDeleteActivity (trip : Trip) (dayId activityId : String) : Trip :=
  { trip with
      days := trip.days.map (fun day =>
        if day.id == dayId then dayDeleteActivity day activityId else day) }

/-- Claim C8 (amended): deleting an id that matches no activity leaves the
list length, order and every non-time field unchanged, but the day is still
re-run through the Recalculator (with no travel segments), so startTime and
endTime are recomputed and may change; the resulting list is exactly
recalculateSchedule of the original list. -/
theorem C8_delete_nonexistent (day : DayPlan) (activityId : String)
    (h : ∀ a ∈ day.activities, jsTrim a.id ≠ jsTrim activityId) :
    (dayDeleteActivity day activityId).activities.length = day.activities.length
    ∧ (dayDeleteActivity day activityId).activities.map frameOf
        = day.activities.map frameOf
    ∧ (dayDeleteActivity day activityId).activities
        = recalculateSchedule day.activities day.startTime [] := by
  have hfilter : day.activities.filter (fun a => !(jsTrim a.id == jsTrim activityId))
      = day.activities := by
    rw [List.filter_eq_self]
    intro a ha
    have hne := h a ha
    simp [hne]
  have hmain : (dayDeleteActivity day activityId).activities
      = recalculateSchedule day.activities day.startTime [] := by
    unfold dayDeleteActivity
    rw [hfilter]
  refine ⟨?_, ?_, hmain⟩
  · rw [hmain, recalculateSchedule_length]
  · rw [hmain, recalculateSchedule_map_frameOf]

/-- Concrete unlocked activity 11:00-12:00. -/
def act11 : Activity :=
  { id := "a11", name := "Stop A", startTime := "11:00", endTime := "12:00",
    location := { lat := 0, lng := 0 }, lockedStartTime := false,
    lockedDurationMinutes := none, payload := "" }

/-- Concrete unlocked activity 13:00-14:00. -/
def act13 : Activity :=
  { id := "a13", name := "Stop B", startTime := "13:00", endTime := "14:00",
    location := { lat := 0, lng := 1 }, lockedStartTime := false,
    lockedDurationMinutes := none, payload := "" }

/-- Concrete unlocked activity 15:00-16:00. -/
def act15 : Activity :=
  { id := "a15", name := "Stop C", startTime := "15:00", endTime := "16:00",
    location := { lat := 1, lng := 0 }, lockedStartTime := false,
    lockedDurationMinutes := none, payload := "" }

/-- A 3-activity day whose stored times are NOT the Recalculator's fixed
point for a 09:00 day start. -/
def threeActivityDay : DayPlan :=
  { id := "d1", date := "2025-01-01", city := "Tokyo", startTime := "09:00",
    activities := [act11, act13, act15], travelSegments := [], notes := "" }

/-- Witness for C8: deleting "zzz" from the 3-activity day keeps the length. -/
theorem C8_witness :
    (∀ a ∈ threeActivityDay.activities, jsTrim a.id ≠ jsTrim "zzz") ∧
    (dayDeleteActivity threeActivityDay "zzz").activities.length
      = threeActivityDay.activities.length :=
  ⟨by decide, (C8_delete_nonexistent threeActivityDay "zzz" (by decide)).1⟩

/-- Counterexample to C8 as stated: deleting the absent id "zzz" from the
3-activity day keeps the same three activities but rewrites their times
(11:00 becomes 09:00, and so on), so the activities are NOT unchanged. -/
theorem C8_counterexample :
    (dayDeleteActivity threeActivityDay "zzz").activities.length
        = threeActivityDay.activities.length
    ∧ (dayDeleteActivity threeActivityDay "zzz").activities
        ≠ threeActivityDay.activities := by
  constructor
  · decide
  · decide

/-- Model of Array.prototype.findIndex, with none standing for -1. -/
def jsFindIndex {α : Type} (p : α → Bool) : List α → Option Nat
  | [] => none
  | a :: rest =>
    if p a then some 0
    else Option.map (fun n => n + 1) (jsFindIndex p rest)

theorem jsFindIndex_spec {α : Type} [Inhabited α] (p : α → Bool) :
    ∀ (l : List α) (i : Nat), jsFindIndex p l = some i →
      i < l.length ∧ p (l.getD i default) = true ∧ l.getD i default ∈ l := by
  intro l
  induction l with
  | nil => intro i h; simp [jsFindIndex] at h
  | cons a rest ih =>
    intro i h
    unfold jsFindIndex at h
    by_cases hp : p a
    · rw [if_pos hp] at h
      have h0 : i = 0 := (Option.some.inj h).symm
      subst h0
      exact ⟨by simp, hp, List.mem_cons_self a rest⟩
    · rw [if_neg hp] at h
      cases hrec : jsFindIndex p rest with
      | none => rw [hrec] at h; simp at h
      | some j =>
        rw [hrec] at h
        have hij : i = j + 1 := by
          have h2 : some (j + 1) = some i := h
          exact (Option.some.inj h2).symm
        subst hij
        obtain ⟨hj1, hj2, hj3⟩ := ih j hrec
        exact ⟨by simpa using hj1, hj2, List.mem_cons_of_mem a hj3⟩

/-- Direction argument of handleMoveActivity. -/
inductive MoveDirection where
  | up : MoveDirection
  | down : MoveDirection
deriving DecidableEq

/-- The target index computed by handleMoveActivity: index - 1 for up,
index + 1 for down (as a JavaScript number, so it may be -1). -/
def moveTarget (index : Nat) (direction : MoveDirection) : Int :=
  match direction with
  | MoveDirection.up => (index : Int) - 1
  | MoveDirection.down => (index : Int) + 1

/-- The in-bounds arm of handleMoveActivity: swap the activities at index and
tgt (each read from the original array) and recalculate the day's times using
its existing travel segments. -/
def moveSwapDay (day : DayPlan) (index tgt : Nat) : DayPlan :=
  { day with
      activities := recalculateSchedule
        ((day.activities.set index (day.activities.getD tgt default)).set tgt
          (day.activities.getD index default))
        day.startTime day.travelSegments }

/-- handleMoveActivity (src/unnamed/part_000 lines 314-336): locate the day by
id (returning the previous state when not found), and when the target index is
in bounds swap the two activities and recalculate with the day's existing
travel segments; otherwise return the previous trip state unchanged. -/
def handleMoveActivity (trip : Trip) (dayId : String) (index : Nat)
    (direction : MoveDirection) : Trip :=
  match jsFindIndex (fun d => d.id == dayId) trip.days with
  | none => trip
  | some dayIndex =>
    if 0 ≤ moveTarget index direction ∧
        moveTarget index direction
          < ((trip.days.getD dayIndex default).activities.length : Int) then
      { trip with
          days := trip.days.set dayIndex
            (moveSwapDay (trip.days.getD dayIndex default) index
              (moveTarget index direction).toNat) }
    else trip

/-- Claim C10: an out-of-bounds move is a complete no-op on the whole trip
state: moving the first activity up, or moving an activity down when it is
the last of the addressed day, returns the previous state unchanged — no swap
and no recalculation. -/
theorem C10_out_of_bounds_move_noop (trip : Trip) (dayId : String) (index : Nat)
    (direction : MoveDirection) :
    (direction = MoveDirection.up → index = 0 →
      handleMoveActivity trip dayId index direction = trip)
    ∧ (direction = MoveDirection.down →
      (∀ d ∈ trip.days, d.id = dayId → d.activities.length ≤ index + 1) →
      handleMoveActivity trip dayId index direction = trip) := by
  constructor
  · intro hdir hidx
    subst hdir
    subst hidx
    unfold handleMoveActivity
    split
    · rfl
    · rw [if_neg]
      rintro ⟨hc1, hc2⟩
      simp only [moveTarget] at hc1
      omega
  · intro hdir hlen
    subst hdir
    unfold handleMoveActivity
    split
    · rfl
    · rename_i di hf
      obtain ⟨hlt, hp, hmem⟩ := jsFindIndex_spec _ trip.days di hf
      have hid : (trip.days.getD di default).id = dayId := by
        simpa using hp
      have hle : (trip.days.getD di default).activities.length ≤ index + 1 :=
        hlen _ hmem hid
      rw [if_neg]
      rintro ⟨hc1, hc2⟩
      simp only [moveTarget] at hc2
      omega

/-- A one-day trip used as the move witness. -/
def smallTrip : Trip :=
  { title := "Japan Trip", days := [threeActivityDay] }

/-- Witness for C10: moving the first activity up and the last (index 2 of 3)
down both leave the trip untouched. -/
theorem C10_witness :
    handleMoveActivity smallTrip "d1" 0 MoveDirection.up = smallTrip ∧
    handleMoveActivity smallTrip "d1" 2 MoveDirection.down = smallTrip :=
  ⟨(C10_out_of_bounds_move_noop smallTrip "d1" 0 MoveDirection.up).1 rfl rfl,
    (C10_out_of_bounds_move_noop smallTrip "d1" 2 MoveDirection.down).2 rfl (by decide)⟩

/-- Activity lookup by index used throughout the solver model. -/
def actAt (activities : List Activity) (i : Nat) : Activity := activities.getD i default

/-- Whether the activity at index i is an anchor. -/
def lockedAt (activities : List Activity) (i : Nat) : Bool :=
  (actAt activities i).lockedStartTime

/-- Day-relative start minutes of the activity at index i (see getRelMins). -/
def relStart (activities : List Activity) (dayStartMins : Int) (i : Nat) : Int :=
  getRelMins dayStartMins (actAt activities i).startTime

/-- Original indices of the anchored activities, in input order (mapService.ts
lines 64-67 carries (act, originalIdx) pairs; here indices with lookups). -/
def anchorIdxs (activities : List Activity) : List Nat :=
  (List.range activities.length).filter (fun i => lockedAt activities i)

/-- The anchors sorted by day-relative start time: the JavaScript stable
ascending sort under the comparator getRelMins(a) - getRelMins(b). -/
def sortedAnchors (activities : List Activity) (dayStartMins : Int) : List Nat :=
  (anchorIdxs activities).mergeSort
    (fun i j => decide (relStart activities dayStartMins i
      ≤ relStart activities dayStartMins j))

/-- Slot index of a flexible activity (mapService.ts lines 93-100): the first
sorted anchor whose time is strictly after the activity's time; List.findIdx
returns the list length when nothing matches, exactly like the source turning
findIndex = -1 into anchors.length. -/
def slotOf (activities : List Activity) (dayStartMins : Int) (idx : Nat) : Nat :=
  (sortedAnchors activities dayStartMins).findIdx
    (fun a => decide (relStart activities dayStartMins idx
      < relStart activities dayStartMins a))

/-- Flexible (unanchored) indices assigned to slot i, in input order
(mapService.ts lines 89-101 pushes them while iterating the activities). -/
def slotFlex (activities : List Activity) (dayStartMins : Int) (i : Nat) : List Nat :=
  (List.range activities.length).filter
    (fun idx => !lockedAt activities idx
      && slotOf activities dayStartMins idx == i)

/-- The slots (mapService.ts lines 69-101): one slot ending at each sorted
anchor, plus a final anchorless slot — which is the only slot when there are
no anchors, matching the source's anchors[0] ?? null first push. -/
def theSlots (activities : List Activity) (dayStartMins : Int) :
    List (Option Nat × List Nat) :=
  ((sortedAnchors activities dayStartMins).enum.map
    (fun p => (some p.2, slotFlex activities dayStartMins p.1)))
    ++ [(none, slotFlex activities dayStartMins
          (sortedAnchors activities dayStartMins).length)]

/-- Greedy nearest-neighbor pick (mapService.ts lines 115-123): the candidate
strictly closest to the current position, earliest in list order on ties
(later equal distances do not beat minDist). -/
def pickNearest (d : Coordinates → Coordinates → Rat) (activities : List Activity)
    (cur : Coordinates) (cands : List Nat) : Option Nat :=
  cands.foldl
    (fun best idx =>
      match best with
      | none => some idx
      | some b =>
        if d cur (actAt activities idx).location < d cur (actAt activities b).location
        then some idx else best)
    none

/-- The while-loop over one slot (mapService.ts lines 109-130): repeatedly
pick the nearest unvisited candidate, append it and move there; returns the
picked order with the final position.  The fuel is the candidate count,
matching the loop bound visitedInSlot.size < slot.flexibleIndices.length. -/
def greedyGo (d : Coordinates → Coordinates → Rat) (activities : List Activity) :
    Coordinates → List Nat → Nat → List Nat × Coordinates
  | cur, _, 0 => ([], cur)
  | cur, cands, fuel + 1 =>
    match pickNearest d activities cur cands with
    | none => ([], cur)
    | some n =>
      let res := greedyGo d activities (actAt activities n).location (cands.erase n) fuel
      (n :: res.1, res.2)

/-- The fold over the slots (mapService.ts lines 104-137): place each slot's
flexible activities greedily from the current position, then append the
slot's terminating anchor when present and advance the position to it. -/
def runSlots (d : Coordinates → Coordinates → Rat) (activities : List Activity) :
    Coordinates → List (Option Nat × List Nat) → List Nat
  | _, [] => []
  | cur, (anc, flex) :: rest =>
    match anc with
    | some a =>
      (greedyGo d activities cur flex flex.length).1
        ++ a :: runSlots d activities (actAt activities a).location rest
    | none =>
      (greedyGo d activities cur flex flex.length).1
        ++ runSlots d activities (greedyGo d activities cur flex flex.length).2 rest

/-- solveGeometricTSP (src/services/mapService.ts lines 48-140), parametrised
by the leg distance.  The source's getDistance is the haversine great-circle
formula over floating-point trigonometry; the ordering logic consumes it only
through comparisons, so it is abstracted as an arbitrary distance d. -/
def solveGeometricTSP (d : Coordinates → Coordinates → Rat) (origin : Coordinates)
    (activities : List Activity) (dayStartTime : String) : List Nat :=
  runSlots d activities origin (theSlots activities (timeToMinsMS dayStartTime))

/-- Classic greedy nearest-neighbor order over all the activities from the
origin: the pure greedy TSP the spec names for the no-anchor case. -/
def greedyNN (d : Coordinates → Coordinates → Rat) (origin : Coordinates)
    (activities : List Activity) : List Nat :=
  (greedyGo d activities origin (List.range activities.length)
    activities.length).1

theorem pickNearest_mem_aux (d : Coordinates → Coordinates → Rat)
    (acts : List Activity) (cur : Coordinates) :
    ∀ (cands : List Nat) (init : Option Nat) (n : Nat),
      cands.foldl
        (fun best idx =>
          match best with
          | none => some idx
          | some b =>
            if d cur (actAt acts idx).location < d cur (actAt acts b).location
            then some idx else best)
        init = some n →
      n ∈ cands ∨ init = some n := by
  intro cands
  induction cands with
  | nil => intro init n h; exact Or.inr h
  | cons c cs ih =>
    intro init n h
    rcases ih _ n h with hmem | hstep
    · exact Or.inl (List.mem_cons_of_mem c hmem)
    · cases init with
      | none =>
        have hc : c = n := Option.some.inj hstep
        exact Or.inl (by rw [← hc]; exact List.mem_cons_self c cs)
      | some b =>
        by_cases hd : d cur (actAt acts c).location < d cur (actAt acts b).location
        · have hc : some c = some n := by simpa [hd] using hstep
          exact Or.inl (by rw [← Option.some.inj hc]; exact List.mem_cons_self c cs)
        · have hb : some b = some n := by simpa [hd] using hstep
          exact Or.inr hb

theorem pickNearest_mem (d : Coordinates → Coordinates → Rat)
    (acts : List Activity) (cur : Coordinates) (cands : List Nat) (n : Nat)
    (h : pickNearest d acts cur cands = some n) : n ∈ cands := by
  unfold pickNearest at h
  rcases pickNearest_mem_aux d acts cur cands none n h with hm | hs
  · exact hm
  · exact absurd hs (by simp)

theorem greedyGo_subset (d : Coordinates → Coordinates → Rat) (acts : List Activity) :
    ∀ (fuel : Nat) (cur : Coordinates) (cands : List Nat) (i : Nat),
      i ∈ (greedyGo d acts cur cands fuel).1 → i ∈ cands := by
  intro fuel
  induction fuel with
  | zero => intro cur cands i hi; simp [greedyGo] at hi
  | succ f ih =>
    intro cur cands i hi
    unfold greedyGo at hi
    cases hp : pickNearest d acts cur cands with
    | none => rw [hp] at hi; simp at hi
    | some n =>
      rw [hp] at hi
      simp only [List.mem_cons] at hi
      rcases hi with rfl | hi
      · exact pickNearest_mem d acts cur cands i hp
      · exact List.erase_subset _ _ (ih _ _ _ hi)

theorem mem_slotFlex_locked (acts : List Activity) (ds : Int) (k : Nat) (i : Nat)
    (h : i ∈ slotFlex acts ds k) : lockedAt acts i = false := by
  unfold slotFlex at h
  have h2 := (List.mem_filter.mp h).2
  simp only [Bool.and_eq_true, Bool.not_eq_true'] at h2
  exact h2.1

theorem mem_sortedAnchors_locked (acts : List Activity) (ds : Int) (a : Nat)
    (h : a ∈ sortedAnchors acts ds) : lockedAt acts a = true := by
  unfold sortedAnchors at h
  have hmem : a ∈ anchorIdxs acts := (List.mergeSort_perm _ _).mem_iff.mp h
  unfold anchorIdxs at hmem
  exact (List.mem_filter.mp hmem).2

theorem snd_mem_of_mem_enum {α : Type} {l : List α} {p : Nat × α}
    (h : p ∈ l.enum) : p.2 ∈ l := by
  have h2 : p.2 ∈ l.enum.map Prod.snd := List.mem_map.mpr ⟨p, h, rfl⟩
  rwa [List.enum_map_snd] at h2

theorem filterMap_some_snd {α : Type} :
    ∀ l : List (Nat × α), l.filterMap (fun p => some p.2) = l.map Prod.snd
  | [] => rfl
  | p :: rest => by
    simp only [List.filterMap_cons, List.map_cons]
    rw [filterMap_some_snd rest]

theorem theSlots_filterMap (acts : List Activity) (ds : Int) :
    (theSlots acts ds).filterMap Prod.fst = sortedAnchors acts ds := by
  unfold theSlots
  rw [List.filterMap_append, List.filterMap_map]
  have h1 : (Prod.fst ∘ fun p : Nat × Nat => ((some p.2 : Option Nat), slotFlex acts ds p.1))
      = fun p : Nat × Nat => some p.2 := rfl
  rw [h1, filterMap_some_snd, List.enum_map_snd]
  simp

theorem runSlots_filter_locked (d : Coordinates → Coordinates → Rat)
    (acts : List Activity) :
    ∀ (slots : List (Option Nat × List Nat)) (cur : Coordinates),
      (∀ s ∈ slots, ∀ i ∈ s.2, lockedAt acts i = false) →
      (∀ s ∈ slots, ∀ a : Nat, s.1 = some a → lockedAt acts a = true) →
      (runSlots d acts cur slots).filter (fun i => lockedAt acts i)
        = slots.filterMap Prod.fst := by
  intro slots
  induction slots with
  | nil => intro cur h1 h2; rfl
  | cons s rest ih =>
    intro cur h1 h2
    obtain ⟨anc, flex⟩ := s
    have hgreedy : ∀ (c : Coordinates) (i : Nat),
        i ∈ (greedyGo d acts c flex flex.length).1 → lockedAt acts i = false :=
      fun c i hi =>
        h1 (anc, flex) (List.mem_cons_self _ _) i (greedyGo_subset d acts _ _ _ _ hi)
    have hfilterg : ∀ c : Coordinates,
        (greedyGo d acts c flex flex.length).1.filter (fun i => lockedAt acts i) = [] := by
      intro c
      rw [List.filter_eq_nil_iff]
      intro i hi
      simp [hgreedy c i hi]
    have hrest1 : ∀ s ∈ rest, ∀ i ∈ s.2, lockedAt acts i = false :=
      fun s hs => h1 s (List.mem_cons_of_mem _ hs)
    have hrest2 : ∀ s ∈ rest, ∀ a : Nat, s.1 = some a → lockedAt acts a = true :=
      fun s hs => h2 s (List.mem_cons_of_mem _ hs)
    cases anc with
    | some a =>
      have ha : lockedAt acts a = true :=
        h2 (some a, flex) (List.mem_cons_self _ _) a rfl
      show ((greedyGo d acts cur flex flex.length).1
          ++ a :: runSlots d acts (actAt acts a).location rest).filter
            (fun i => lockedAt acts i)
        = ((some a, flex) :: rest).filterMap Prod.fst
      rw [List.filter_append, hfilterg cur, List.nil_append, List.filter_cons,
        if_pos ha, ih _ hrest1 hrest2]
      rfl
    | none =>
      show ((greedyGo d acts cur flex flex.length).1
          ++ runSlots d acts (greedyGo d acts cur flex flex.length).2 rest).filter
            (fun i => lockedAt acts i)
        = ((none, flex) :: rest).filterMap Prod.fst
      rw [List.filter_append, hfilterg cur, List.nil_append, ih _ hrest1 hrest2]
      rfl

theorem pairwise_of_filter {α : Type} (p : α → Bool) {R : α → α → Prop} :
    ∀ {l : List α}, (l.filter p).Pairwise R →
      l.Pairwise (fun a b => p a = true → p b = true → R a b) := by
  intro l
  induction l with
  | nil => intro h; exact List.Pairwise.nil
  | cons a rest ih =>
    intro h
    by_cases hp : p a = true
    · rw [List.filter_cons, if_pos hp] at h
      cases h with
      | cons hhead htail =>
        constructor
        · intro b hb hpa hpb
          exact hhead b (List.mem_filter.mpr ⟨hb, hpb⟩)
        · exact ih htail
    · rw [List.filter_cons, if_neg hp] at h
      constructor
      · intro b hb hpa hpb
        exact absurd hpa hp
      · exact ih h

theorem sortedAnchors_pairwise (acts : List Activity) (ds : Int) :
    (sortedAnchors acts ds).Pairwise
      (fun i j => relStart acts ds i ≤ relStart acts ds j) := by
  have htrans : ∀ a b c : Nat,
      decide (relStart acts ds a ≤ relStart acts ds b) = true →
      decide (relStart acts ds b ≤ relStart acts ds c) = true →
      decide (relStart acts ds a ≤ relStart acts ds c) = true := by
    intro a b c hab hbc
    simp only [decide_eq_true_eq] at hab hbc ⊢
    omega
  have htotal : ∀ a b : Nat,
      (decide (relStart acts ds a ≤ relStart acts ds b)
        || decide (relStart acts ds b ≤ relStart acts ds a)) = true := by
    intro a b
    simp only [Bool.or_eq_true, decide_eq_true_eq]
    omega
  have h := List.sorted_mergeSort htrans htotal (anchorIdxs acts)
  exact h.imp (fun hab => by simpa using hab)

theorem sortedAnchors_perm (acts : List Activity) (ds : Int) :
    List.Perm (sortedAnchors acts ds) (anchorIdxs acts) :=
  List.mergeSort_perm _ _

theorem theSlots_flex_unanchored (acts : List Activity) (ds : Int) :
    ∀ s ∈ theSlots acts ds, ∀ i ∈ s.2, lockedAt acts i = false := by
  intro s hs i hi
  unfold theSlots at hs
  rcases List.mem_append.mp hs with hl | hr
  · obtain ⟨p, hp, hps⟩ := List.mem_map.mp hl
    have : s.2 = slotFlex acts ds p.1 := by rw [← hps]
    rw [this] at hi
    exact mem_slotFlex_locked acts ds p.1 i hi
  · have hs2 : s = (none, slotFlex acts ds (sortedAnchors acts ds).length) := by
      simpa using hr
    rw [hs2] at hi
    exact mem_slotFlex_locked acts ds _ i hi

theorem theSlots_anchor_locked (acts : List Activity) (ds : Int) :
    ∀ s ∈ theSlots acts ds, ∀ a : Nat, s.1 = some a → lockedAt acts a = true := by
  intro s hs a hsa
  unfold theSlots at hs
  rcases List.mem_append.mp hs with hl | hr
  · obtain ⟨p, hp, hps⟩ := List.mem_map.mp hl
    have h1 : s.1 = some p.2 := by rw [← hps]
    rw [h1] at hsa
    have : p.2 = a := Option.some.inj hsa
    rw [← this]
    exact mem_sortedAnchors_locked acts ds p.2 (snd_mem_of_mem_enum hp)
  · have hs2 : s = (none, slotFlex acts ds (sortedAnchors acts ds).length) := by
      simpa using hr
    rw [hs2] at hsa
    exact absurd hsa (by simp)

/-- The anchors appear in the solver's output exactly as the sorted anchor
list: filtering the output to anchored indices recovers it. -/
theorem solveTSP_filter_locked (d : Coordinates → Coordinates → Rat)
    (origin : Coordinates) (acts : List Activity) (dayStartTime : String) :
    (solveGeometricTSP d origin acts dayStartTime).filter (fun i => lockedAt acts i)
      = sortedAnchors acts (timeToMinsMS dayStartTime) := by
  unfold solveGeometricTSP
  rw [runSlots_filter_locked d acts _ origin
    (theSlots_flex_unanchored acts (timeToMinsMS dayStartTime))
    (theSlots_anchor_locked acts (timeToMinsMS dayStartTime))]
  exact theSlots_filterMap acts (timeToMinsMS dayStartTime)

theorem runSlots_all_empty (d : Coordinates → Coordinates → Rat)
    (acts : List Activity) :
    ∀ (slots : List (Option Nat × List Nat)) (cur : Coordinates),
      (∀ s ∈ slots, s.2 = []) →
      runSlots d acts cur slots = slots.filterMap Prod.fst := by
  intro slots
  induction slots with
  | nil => intro cur h; rfl
  | cons s rest ih =>
    intro cur h
    obtain ⟨anc, flex⟩ := s
    have hflex : flex = [] := h (anc, flex) (List.mem_cons_self _ _)
    subst hflex
    have hrest : ∀ s ∈ rest, s.2 = [] := fun s hs => h s (List.mem_cons_of_mem _ hs)
    cases anc with
    | some a =>
      show (greedyGo d acts cur [] 0).1
          ++ a :: runSlots d acts (actAt acts a).location rest
        = ((some a, ([] : List Nat)) :: rest).filterMap Prod.fst
      rw [ih _ hrest]
      rfl
    | none =>
      show (greedyGo d acts cur [] 0).1
          ++ runSlots d acts (greedyGo d acts cur [] 0).2 rest
        = ((none, ([] : List Nat)) :: rest).filterMap Prod.fst
      rw [ih _ hrest]
      rfl

theorem slotFlex_all_anchored (acts : List Activity) (ds : Int) (k : Nat)
    (h : ∀ a ∈ acts, a.lockedStartTime = true) : slotFlex acts ds k = [] := by
  unfold slotFlex
  rw [List.filter_eq_nil_iff]
  intro i hi
  have hidx : i < acts.length := List.mem_range.mp hi
  have hlock : lockedAt acts i = true := by
    unfold lockedAt actAt
    rw [List.getD_eq_getElem _ _ hidx]
    exact h _ (List.getElem_mem hidx)
  simp [hlock]

theorem anchorIdxs_nil (acts : List Activity)
    (h : ∀ a ∈ acts, a.lockedStartTime = false) : anchorIdxs acts = [] := by
  unfold anchorIdxs
  rw [List.filter_eq_nil_iff]
  intro i hi
  have hidx : i < acts.length := List.mem_range.mp hi
  unfold lockedAt actAt
  rw [List.getD_eq_getElem _ _ hidx]
  simp [h _ (List.getElem_mem hidx)]

theorem slotFlex_no_anchors (acts : List Activity) (ds : Int)
    (h : ∀ a ∈ acts, a.lockedStartTime = false) :
    slotFlex acts ds 0 = List.range acts.length := by
  have hsort : sortedAnchors acts ds = [] := by
    unfold sortedAnchors
    rw [anchorIdxs_nil acts h, List.mergeSort_nil]
  unfold slotFlex
  rw [List.filter_eq_self]
  intro i hi
  have hidx : i < acts.length := List.mem_range.mp hi
  have hlock : lockedAt acts i = false := by
    unfold lockedAt actAt
    rw [List.getD_eq_getElem _ _ hidx]
    exact h _ (List.getElem_mem hidx)
  have hslot : slotOf acts ds i = 0 := by
    unfold slotOf
    rw [hsort]
    rfl
  simp [hlock, hslot]

/-- Claim C7: in the solver's output permutation, any two anchored activities
appear in nondecreasing order of their day-relative start times (times before
the day start counting as next-day, +1440); the sorted anchor list is a
permutation of the anchors sorted (pairwise) by that time; when every
activity is anchored the output is exactly that sorted anchor list; and when
no activity is anchored the output is the pure greedy nearest-neighbor order
from the origin. -/
theorem C7_route_solver (d : Coordinates → Coordinates → Rat) (origin : Coordinates)
    (activities : List Activity) (dayStartTime : String) :
    (∀ p q : Nat, p < q →
      q < (solveGeometricTSP d origin activities dayStartTime).length →
      lockedAt activities
          ((solveGeometricTSP d origin activities dayStartTime).getD p 0) = true →
      lockedAt activities
          ((solveGeometricTSP d origin activities dayStartTime).getD q 0) = true →
      relStart activities (timeToMinsMS dayStartTime)
          ((solveGeometricTSP d origin activities dayStartTime).getD p 0)
        ≤ relStart activities (timeToMinsMS dayStartTime)
            ((solveGeometricTSP d origin activities dayStartTime).getD q 0))
    ∧ List.Perm (sortedAnchors activities (timeToMinsMS dayStartTime))
        (anchorIdxs activities)
    ∧ (sortedAnchors activities (timeToMinsMS dayStartTime)).Pairwise
        (fun i j => relStart activities (timeToMinsMS dayStartTime) i
          ≤ relStart activities (timeToMinsMS dayStartTime) j)
    ∧ ((∀ a ∈ activities, a.lockedStartTime = true) →
        solveGeometricTSP d origin activities dayStartTime
          = sortedAnchors activities (timeToMinsMS dayStartTime))
    ∧ ((∀ a ∈ activities, a.lockedStartTime = false) →
        solveGeometricTSP d origin activities dayStartTime
          = greedyNN d origin activities) := by
  refine ⟨?_, sortedAnchors_perm activities (timeToMinsMS dayStartTime),
    sortedAnchors_pairwise activities (timeToMinsMS dayStartTime), ?_, ?_⟩
  · have hpair := sortedAnchors_pairwise activities (timeToMinsMS dayStartTime)
    rw [← solveTSP_filter_locked d origin activities dayStartTime] at hpair
    have hout := pairwise_of_filter (fun i => lockedAt activities i) hpair
    intro p q hpq hq hlp hlq
    have hp : p < (solveGeometricTSP d origin activities dayStartTime).length :=
      lt_trans hpq hq
    have hgp := List.getD_eq_getElem
      (solveGeometricTSP d origin activities dayStartTime) 0 hp
    have hgq := List.getD_eq_getElem
      (solveGeometricTSP d origin activities dayStartTime) 0 hq
    rw [hgp] at hlp
    rw [hgq] at hlq
    rw [hgp, hgq]
    exact List.pairwise_iff_getElem.mp hout p q hp hq hpq hlp hlq
  · intro h
    unfold solveGeometricTSP
    rw [runSlots_all_empty d activities _ origin ?hempty, theSlots_filterMap]
    case hempty =>
      intro s hs
      unfold theSlots at hs
      rcases List.mem_append.mp hs with hl | hr
      · obtain ⟨p, hp, hps⟩ := List.mem_map.mp hl
        rw [← hps]
        exact slotFlex_all_anchored activities (timeToMinsMS dayStartTime) p.1 h
      · have hs2 : s = (none, slotFlex activities (timeToMinsMS dayStartTime)
            (sortedAnchors activities (timeToMinsMS dayStartTime)).length) := by
          simpa using hr
        rw [hs2]
        exact slotFlex_all_anchored activities (timeToMinsMS dayStartTime) _ h
  · intro h
    have hsort : sortedAnchors activities (timeToMinsMS dayStartTime) = [] := by
      unfold sortedAnchors
      rw [anchorIdxs_nil activities h, List.mergeSort_nil]
    have hslots : theSlots activities (timeToMinsMS dayStartTime)
        = [(none, List.range activities.length)] := by
      unfold theSlots
      rw [hsort]
      simp only [List.enum_nil, List.map_nil, List.nil_append, List.length_nil]
      rw [slotFlex_no_anchors activities (timeToMinsMS dayStartTime) h]
    unfold solveGeometricTSP greedyNN
    rw [hslots]
    show (greedyGo d activities origin (List.range activities.length)
        (List.range activities.length).length).1
      ++ runSlots d activities
          (greedyGo d activities origin (List.range activities.length)
            (List.range activities.length).length).2 []
      = (greedyGo d activities origin (List.range activities.length)
          activities.length).1
    rw [List.length_range]
    show (greedyGo d activities origin (List.range activities.length)
        activities.length).1 ++ [] = _
    rw [List.append_nil]

/-- Anchored activity at 09:00 located at the origin. -/
def anchorA : Activity :=
  { id := "A", name := "A", startTime := "09:00", endTime := "10:00",
    location := { lat := 0, lng := 0 }, lockedStartTime := true,
    lockedDurationMinutes := none, payload := "" }

/-- Anchored activity at 14:00 located away from the origin. -/
def anchorB : Activity :=
  { id := "B", name := "B", startTime := "14:00", endTime := "15:00",
    location := { lat := 10, lng := 10 }, lockedStartTime := true,
    lockedDurationMinutes := none, payload := "" }

/-- Squared Euclidean distance: a concrete stand-in for the abstract leg
distance in the witness. -/
def sqDist (p q : Coordinates) : Rat :=
  (p.lat - q.lat) * (p.lat - q.lat) + (p.lng - q.lng) * (p.lng - q.lng)

/-- Witness for C7: with B (14:00) listed before A (09:00), both anchored,
the solver output is the anchors in time order. -/
theorem C7_witness :
    (∀ a ∈ ([anchorB, anchorA] : List Activity), a.lockedStartTime = true) ∧
    solveGeometricTSP sqDist { lat := 0, lng := 0 } [anchorB, anchorA] "09:00"
      = sortedAnchors [anchorB, anchorA] (timeToMinsMS "09:00") ∧
    anchorIdxs [anchorB, anchorA] = [0, 1] ∧
    relStart [anchorB, anchorA] (timeToMinsMS "09:00") 1 = 540 ∧
    relStart [anchorB, anchorA] (timeToMinsMS "09:00") 0 = 840 :=
  ⟨by decide,
    (C7_route_solver sqDist { lat := 0, lng := 0 } [anchorB, anchorA] "09:00").2.2.2.1
      (by decide),
    by decide, by decide, by decide⟩

end TripVis
